import Mathlib

/-!
Verification of the emissivity core of `pylandtemp` (`emissivity/emissivity.py`).

Embedding notes:
* numpy float pixels are modelled by `FP`: either NaN or an exact rational
  value.  The arithmetic used by the code (add, sub, mul, div by a nonzero
  constant, squaring) propagates NaN; comparisons with NaN are `false`,
  matching IEEE semantics for the operations actually performed.
* A raster is a list of rows (`List (List FP)`); numpy rasters are
  rectangular, and the source asserts the input is 2-D, which the type
  enforces.  `rasterShape` is the list of row lengths, so shape equality of
  rectangular rasters coincides with numpy shape equality.
* All array operations in the source are elementwise (boolean-mask scatter
  writes with elementwise masks), so each model's `_compute_emissivity` is
  embedded as an elementwise map that mirrors the source's sequence of
  masked writes, in the source's order (last write wins).
* `emissivity/utils.py` (`fractional_vegetation_cover`, `cavity_effect`) is
  not part of the sources; per the spec (§4.2, §4.3) they are elementwise
  functions of NDVI resp. of FVC.  The models are therefore parameterized
  by pixel functions `fvcPix` and `cavPix`.
-/

/-- A floating-point pixel value: NaN, or an exact numeric value. -/
inductive FP where
  | nan : FP
  | val : ℚ → FP
deriving DecidableEq

namespace FP

/-- `np.isnan` on a single pixel. -/
def isNaN : FP → Bool
  | nan => true
  | val _ => false

def add : FP → FP → FP
  | val a, val b => val (a + b)
  | _, _ => nan

def sub : FP → FP → FP
  | val a, val b => val (a - b)
  | _, _ => nan

def mul : FP → FP → FP
  | val a, val b => val (a * b)
  | _, _ => nan

/-- Division; only ever used with a nonzero constant denominator in this
    development, where rational division agrees with float division. -/
def div : FP → FP → FP
  | val a, val b => val (a / b)
  | _, _ => nan

/-- `x ** 2` as used in the source. -/
def sq (x : FP) : FP := x.mul x

/-- `<=` with IEEE NaN semantics: false whenever an operand is NaN. -/
def le : FP → FP → Bool
  | val a, val b => decide (a ≤ b)
  | _, _ => false

/-- `<` with IEEE NaN semantics. -/
def lt : FP → FP → Bool
  | val a, val b => decide (a < b)
  | _, _ => false

def ge (x y : FP) : Bool := le y x

def gt (x y : FP) : Bool := lt y x

end FP

instance : Add FP := ⟨FP.add⟩
instance : Sub FP := ⟨FP.sub⟩
instance : Mul FP := ⟨FP.mul⟩
instance : Div FP := ⟨FP.div⟩

/-- `(self.ndvi >= -1) & (self.ndvi < 0.2)`, per pixel. -/
def mask_baresoil (n : FP) : Bool := (n.ge (FP.val (-1))) && (n.lt (FP.val 0.2))

/-- `(self.ndvi > 0.5) & (self.ndvi <= 1)`, per pixel. -/
def mask_vegetation (n : FP) : Bool := (n.gt (FP.val 0.5)) && (n.le (FP.val 1))

/-- `(self.ndvi >= 0.2) & (self.ndvi <= 0.5)`, per pixel. -/
def mask_mixed (n : FP) : Bool := (n.ge (FP.val 0.2)) && (n.le (FP.val 0.5))

/-- `ComputeMonoWindowEmissivity._compute_emissivity`, per pixel: the buffer
    starts at 0 (`np.zeros_like`), then the baresoil, vegetation and mixed
    masked writes are applied in the source's order, then the NaN write. -/
def monoWindowPix (n : FP) : FP :=
  let e := FP.val 0
  let e := if mask_baresoil n then FP.val 0.97 else e
  let e := if mask_vegetation n then FP.val 0.99 else e
  let e := if mask_mixed n then
      FP.val 0.004 * ((n - FP.val 0.2) / (FP.val 0.5 - FP.val 0.2)).sq + FP.val 0.986
    else e
  if n.isNaN then FP.nan else e

/-- `ComputeEmissivityNBEM._compute_emissivity`, per pixel (after the
    red-band presence check): zero buffer, then baresoil, mixed, vegetation
    masked writes in the source's order, then the NaN write.  `fvc` and
    `cav` are this pixel's fractional-vegetation-cover and cavity-effect
    values. -/
def nbemPix (n r fvc cav : FP) : FP :=
  let e := FP.val 0
  let e := if mask_baresoil n then FP.val 0.973 - FP.val 0.047 * r else e
  let e := if mask_mixed n then
      FP.val 0.9863 * fvc + FP.val 0.9668 * (FP.val 1 - fvc) + cav
    else e
  let e := if mask_vegetation n then FP.val 0.9863 + cav else e
  if n.isNaN then FP.nan else e

/-- `ComputeEmissivityGopinadh._compute_emissivity`, per pixel: the blend
    replaces the whole buffer (no masks), then the NaN write. -/
def gopinadhPix (n fvc : FP) : FP :=
  let e := FP.val 0.9668 * (FP.val 1 - fvc) + FP.val 0.9747 * fvc
  if n.isNaN then FP.nan else e

/-- A 2-D raster: a list of rows. -/
abbrev Raster := List (List FP)

/-- numpy shape of a (rectangular) raster, as the list of row lengths. -/
def rasterShape (r : Raster) : List Nat := r.map List.length

/-- Elementwise map over a raster. -/
def pixmap (f : FP → FP) (r : Raster) : Raster := r.map (List.map f)

/-- Elementwise combination of two rasters. -/
def map2 (f : FP → FP → FP) (a b : Raster) : Raster :=
  List.zipWith (List.zipWith f) a b

/-- Pixel at row `i`, column `j`. -/
def getPix (r : Raster) (i j : Nat) : Option FP :=
  (r.get? i).bind (fun row => row.get? j)

/-- The errors raised by the source (as Python assertion/`NotImplementedError`
    failures), abstracted by kind, carrying the source's message text. -/
inductive EmisError where
  | shapeMismatch (msg : String)
  | missingInput (msg : String)
  | unknownMethod (msg : String)
deriving DecidableEq

/-- The red-band shape precondition of `EmissivityParent.__call__`: checked
    only when a red band is supplied. -/
def shapeOk (ndvi : Raster) : Option Raster → Bool
  | none => true
  | some r => rasterShape ndvi = rasterShape r

/-- `EmissivityParent.__call__`: if a red band is present its shape must
    equal NDVI's (checked before any computation); then
    `_compute_emissivity` runs (its errors propagate), and finally
    `emm[self.nan_mask] = np.nan` overlays NaN wherever NDVI is NaN. -/
def parentCall (compute : Raster → Option Raster → Except EmisError Raster)
    (ndvi : Raster) (red : Option Raster) : Except EmisError Raster :=
  if shapeOk ndvi red then
    match compute ndvi red with
    | .ok emm => .ok (map2 (fun n e => if n.isNaN then FP.nan else e) ndvi emm)
    | .error e => .error e
  else
    .error (.shapeMismatch "Input images (NDVI and Red band) must be of equal dimension")

/-- `ComputeMonoWindowEmissivity._compute_emissivity` (ignores the red band). -/
def monoCompute (ndvi : Raster) (_red : Option Raster) : Except EmisError Raster :=
  .ok (pixmap monoWindowPix ndvi)

/-- `ComputeEmissivityNBEM._compute_emissivity`: asserts the red band is
    present before any per-class write; then elementwise over NDVI and red.
    `fvcPix`/`cavPix` are the (spec-modelled) elementwise FVC and cavity
    functions from `emissivity/utils.py`. -/
def nbemCompute (fvcPix cavPix : FP → FP) (ndvi : Raster) (red : Option Raster) :
    Except EmisError Raster :=
  match red with
  | none => .error (.missingInput "Red band cannot be None for this emissivity computation method")
  | some r => .ok (map2 (fun n rv => nbemPix n rv (fvcPix n) (cavPix (fvcPix n))) ndvi r)

/-- `ComputeEmissivityGopinadh._compute_emissivity` (ignores the red band). -/
def gopinadhCompute (fvcPix : FP → FP) (ndvi : Raster) (_red : Option Raster) :
    Except EmisError Raster :=
  .ok (pixmap (fun n => gopinadhPix n (fvcPix n)) ndvi)

/-- `ComputeMonoWindowEmissivity(ndvi, red_band)()`. -/
def monoCall (ndvi : Raster) (red : Option Raster) : Except EmisError Raster :=
  parentCall monoCompute ndvi red

/-- `ComputeEmissivityNBEM(ndvi, red_band)()`. -/
def nbemCall (fvcPix cavPix : FP → FP) (ndvi : Raster) (red : Option Raster) :
    Except EmisError Raster :=
  parentCall (nbemCompute fvcPix cavPix) ndvi red

/-- `ComputeEmissivityGopinadh(ndvi, red_band)()`. -/
def gopinadhCall (fvcPix : FP → FP) (ndvi : Raster) (red : Option Raster) :
    Except EmisError Raster :=
  parentCall (gopinadhCompute fvcPix) ndvi red

/-- `EMISSIVITY_METHODS = ['avdan', 'xiaolei', 'gopinadh']`. -/
def EMISSIVITY_METHODS : List String := ["avdan", "xiaolei", "gopinadh"]

/-- `Emissivity.__call__(method)`: the membership assertion fires first,
    with message `"Method not implemented"`; for a known method,
    `get_method` selects the class, which is constructed on `(ndvi,
    red_band)` and invoked. -/
def emissivityDispatch (fvcPix cavPix : FP → FP) (ndvi : Raster)
    (red : Option Raster) (method : String) : Except EmisError Raster :=
  if method ∈ EMISSIVITY_METHODS then
    if method = "avdan" then monoCall ndvi red
    else if method = "xiaolei" then nbemCall fvcPix cavPix ndvi red
    else gopinadhCall fvcPix ndvi red
  else
    .error (.unknownMethod "Method not implemented")

/-- Modelled from the spec: `fractional_vegetation_cover` lives in
    `emissivity/utils.py`, which is absent from the sources.  Spec §4.2 fixes
    only that it is an elementwise monotone NDVI-to-FVC transform that
    propagates NaN; the theorems quantify over an arbitrary pixel function,
    and this representative instance (the standard
    `((ndvi - 0.2) / (0.5 - 0.2))^2` transform) is used for witnesses. -/
def fvcSpec (n : FP) : FP := ((n - FP.val 0.2) / (FP.val 0.5 - FP.val 0.2)).sq

/-- Modelled from the spec: `cavity_effect` lives in `emissivity/utils.py`,
    absent from the sources.  Spec §4.3 fixes only that it is a pure
    elementwise function of FVC; this representative instance is used for
    witnesses. -/
def cavitySpec (fvc : FP) : FP := FP.val 0.018 * (FP.val 1 - fvc)

/-- Substring occurrence over character lists (for reasoning about error
    message contents). -/
def charsStart : List Char → List Char → Bool
  | [], _ => true
  | _ :: _, [] => false
  | a :: as, b :: bs => a = b && charsStart as bs

/-- `hasSub pat s`: `pat` occurs contiguously in `s`. -/
def hasSub (pat : List Char) : List Char → Bool
  | [] => charsStart pat []
  | c :: rest => charsStart pat (c :: rest) || hasSub pat rest

/-- Whether an error message lists the valid method set, i.e. mentions every
    valid method name. -/
def msgListsMethods (msg : String) : Bool :=
  EMISSIVITY_METHODS.all (fun m => hasSub m.toList msg.toList)

/-! ## Generic list and pixel-access lemmas -/

theorem listGetQ_map {α β : Type} (f : α → β) :
    ∀ (l : List α) (i : Nat), (l.map f).get? i = (l.get? i).map f
  | [], 0 => rfl
  | [], _ + 1 => rfl
  | _ :: _, 0 => rfl
  | _ :: as, i + 1 => listGetQ_map f as i

theorem listGetQ_zipWith {α β γ : Type} (f : α → β → γ) :
    ∀ (l1 : List α) (l2 : List β) (i : Nat),
      (List.zipWith f l1 l2).get? i =
        (l1.get? i).bind (fun a => (l2.get? i).map (f a))
  | [], _, 0 => rfl
  | [], _, _ + 1 => rfl
  | _ :: _, [], 0 => rfl
  | _ :: as, [], i + 1 => by
      show (none : Option γ) = (as.get? i).bind fun a => Option.map (f a) none
      cases as.get? i <;> rfl
  | _ :: _, _ :: _, 0 => rfl
  | _ :: as, _ :: bs, i + 1 => listGetQ_zipWith f as bs i

theorem getPix_pixmap (g : FP → FP) (r : Raster) (i j : Nat) :
    getPix (pixmap g r) i j = (getPix r i j).map g := by
  unfold getPix pixmap
  rw [listGetQ_map]
  cases r.get? i with
  | none => rfl
  | some row => exact listGetQ_map g row j

theorem getPix_map2 (f : FP → FP → FP) (a b : Raster) (i j : Nat) :
    getPix (map2 f a b) i j =
      (getPix a i j).bind (fun x => (getPix b i j).map (f x)) := by
  unfold getPix map2
  rw [listGetQ_zipWith]
  cases a.get? i with
  | none => rfl
  | some ra =>
    cases b.get? i with
    | none =>
      show (none : Option FP) = (ra.get? j).bind fun x => Option.map (f x) none
      cases ra.get? j <;> rfl
    | some rb => exact listGetQ_zipWith f ra rb j

/-! ## FP arithmetic lemmas -/

@[simp] theorem FP.val_add (a b : ℚ) : FP.val a + FP.val b = FP.val (a + b) := rfl

@[simp] theorem FP.val_sub (a b : ℚ) : FP.val a - FP.val b = FP.val (a - b) := rfl

@[simp] theorem FP.val_mul (a b : ℚ) : FP.val a * FP.val b = FP.val (a * b) := rfl

@[simp] theorem FP.val_div (a b : ℚ) : FP.val a / FP.val b = FP.val (a / b) := rfl

@[simp] theorem FP.val_sq (a : ℚ) : (FP.val a).sq = FP.val (a * a) := rfl

@[simp] theorem FP.isNaN_val (a : ℚ) : (FP.val a).isNaN = false := rfl

@[simp] theorem FP.isNaN_nan : FP.nan.isNaN = true := rfl

/-! ## Land-surface mask characterizations -/

theorem mask_baresoil_iff (q : ℚ) :
    mask_baresoil (FP.val q) = true ↔ -1 ≤ q ∧ q < 0.2 := by
  simp [mask_baresoil, FP.ge, FP.le, FP.lt]

theorem mask_vegetation_iff (q : ℚ) :
    mask_vegetation (FP.val q) = true ↔ 0.5 < q ∧ q ≤ 1 := by
  simp [mask_vegetation, FP.gt, FP.lt, FP.le]

theorem mask_mixed_iff (q : ℚ) :
    mask_mixed (FP.val q) = true ↔ 0.2 ≤ q ∧ q ≤ 0.5 := by
  simp [mask_mixed, FP.ge, FP.le]

theorem mask_baresoil_false (q : ℚ) (h : ¬(-1 ≤ q ∧ q < 0.2)) :
    mask_baresoil (FP.val q) = false := by
  rw [Bool.eq_false_iff]
  intro hc
  exact h ((mask_baresoil_iff q).mp hc)

theorem mask_vegetation_false (q : ℚ) (h : ¬(0.5 < q ∧ q ≤ 1)) :
    mask_vegetation (FP.val q) = false := by
  rw [Bool.eq_false_iff]
  intro hc
  exact h ((mask_vegetation_iff q).mp hc)

theorem mask_mixed_false (q : ℚ) (h : ¬(0.2 ≤ q ∧ q ≤ 0.5)) :
    mask_mixed (FP.val q) = false := by
  rw [Bool.eq_false_iff]
  intro hc
  exact h ((mask_mixed_iff q).mp hc)

@[simp] theorem mask_baresoil_nan : mask_baresoil FP.nan = false := rfl

@[simp] theorem mask_vegetation_nan : mask_vegetation FP.nan = false := rfl

@[simp] theorem mask_mixed_nan : mask_mixed FP.nan = false := rfl

/-! ## Pixel-level characterizations -/

theorem monoWindowPix_baresoil (q : ℚ) (h1 : -1 ≤ q) (h2 : q < 0.2) :
    monoWindowPix (FP.val q) = FP.val 0.97 := by
  have hb := (mask_baresoil_iff q).mpr ⟨h1, h2⟩
  have hv := mask_vegetation_false q (by rintro ⟨h3, -⟩; norm_num at h2 h3; linarith)
  have hm := mask_mixed_false q (by rintro ⟨h3, -⟩; norm_num at h2 h3; linarith)
  simp [monoWindowPix, hb, hv, hm]

theorem monoWindowPix_vegetation (q : ℚ) (h1 : 0.5 < q) (h2 : q ≤ 1) :
    monoWindowPix (FP.val q) = FP.val 0.99 := by
  have hv := (mask_vegetation_iff q).mpr ⟨h1, h2⟩
  have hm := mask_mixed_false q (by rintro ⟨-, h3⟩; norm_num at h1 h3; linarith)
  simp [monoWindowPix, hv, hm]

theorem monoWindowPix_mixed (q : ℚ) (h1 : 0.2 ≤ q) (h2 : q ≤ 0.5) :
    monoWindowPix (FP.val q) = FP.val (0.004 * ((q - 0.2) / (0.5 - 0.2)) ^ 2 + 0.986) := by
  have hm := (mask_mixed_iff q).mpr ⟨h1, h2⟩
  have h3 : monoWindowPix (FP.val q) =
      FP.val (0.004 * (((q - 0.2) / (0.5 - 0.2)) * ((q - 0.2) / (0.5 - 0.2))) + 0.986) := by
    simp [monoWindowPix, hm]
  rw [h3]
  congr 1
  ring

theorem monoWindowPix_out_of_range (q : ℚ) (h : q < -1 ∨ 1 < q) :
    monoWindowPix (FP.val q) = FP.val 0 := by
  have hb := mask_baresoil_false q (by rintro ⟨h3, h4⟩; norm_num at h3 h4; rcases h with h | h <;> linarith)
  have hv := mask_vegetation_false q (by rintro ⟨h3, h4⟩; norm_num at h3 h4; rcases h with h | h <;> linarith)
  have hm := mask_mixed_false q (by rintro ⟨h3, h4⟩; norm_num at h3 h4; rcases h with h | h <;> linarith)
  simp [monoWindowPix, hb, hv, hm]

theorem nbemPix_out_of_range (q : ℚ) (r fvc cav : FP) (h : q < -1 ∨ 1 < q) :
    nbemPix (FP.val q) r fvc cav = FP.val 0 := by
  have hb := mask_baresoil_false q (by rintro ⟨h3, h4⟩; norm_num at h3 h4; rcases h with h | h <;> linarith)
  have hv := mask_vegetation_false q (by rintro ⟨h3, h4⟩; norm_num at h3 h4; rcases h with h | h <;> linarith)
  have hm := mask_mixed_false q (by rintro ⟨h3, h4⟩; norm_num at h3 h4; rcases h with h | h <;> linarith)
  simp [nbemPix, hb, hv, hm]

theorem monoWindowPix_isNaN (q : ℚ) : (monoWindowPix (FP.val q)).isNaN = false := by
  simp [monoWindowPix, apply_ite FP.isNaN]

theorem nbemPix_isNaN (q r f c : ℚ) :
    (nbemPix (FP.val q) (FP.val r) (FP.val f) (FP.val c)).isNaN = false := by
  simp [nbemPix, apply_ite FP.isNaN]

theorem gopinadhPix_isNaN (q f : ℚ) :
    (gopinadhPix (FP.val q) (FP.val f)).isNaN = false := by
  simp [gopinadhPix]

/-! ## Call-level characterizations -/

theorem monoCall_ok_pix (ndvi : Raster) (red : Option Raster) (out : Raster)
    (h : monoCall ndvi red = Except.ok out) (i j : Nat) (n : FP)
    (hn : getPix ndvi i j = some n) :
    getPix out i j = some (if n.isNaN then FP.nan else monoWindowPix n) := by
  unfold monoCall parentCall monoCompute at h
  by_cases hs : shapeOk ndvi red
  · rw [if_pos hs] at h
    injection h with h
    subst h
    simp only [getPix_map2, getPix_pixmap, hn]
    rfl
  · rw [if_neg hs] at h
    exact Except.noConfusion h

theorem nbemCall_ok_pix (fvcPix cavPix : FP → FP) (ndvi red out : Raster)
    (h : nbemCall fvcPix cavPix ndvi (some red) = Except.ok out) (i j : Nat) (n rv : FP)
    (hn : getPix ndvi i j = some n) (hr : getPix red i j = some rv) :
    getPix out i j =
      some (if n.isNaN then FP.nan
            else nbemPix n rv (fvcPix n) (cavPix (fvcPix n))) := by
  unfold nbemCall parentCall nbemCompute at h
  by_cases hs : shapeOk ndvi (some red)
  · rw [if_pos hs] at h
    injection h with h
    subst h
    simp only [getPix_map2, hn, hr]
    rfl
  · rw [if_neg hs] at h
    exact Except.noConfusion h

theorem gopinadhCall_ok_pix (fvcPix : FP → FP) (ndvi : Raster) (red : Option Raster)
    (out : Raster) (h : gopinadhCall fvcPix ndvi red = Except.ok out) (i j : Nat) (n : FP)
    (hn : getPix ndvi i j = some n) :
    getPix out i j = some (if n.isNaN then FP.nan else gopinadhPix n (fvcPix n)) := by
  unfold gopinadhCall parentCall gopinadhCompute at h
  by_cases hs : shapeOk ndvi red
  · rw [if_pos hs] at h
    injection h with h
    subst h
    simp only [getPix_map2, getPix_pixmap, hn]
    rfl
  · rw [if_neg hs] at h
    exact Except.noConfusion h

theorem parentCall_shape_mismatch (compute : Raster → Option Raster → Except EmisError Raster)
    (ndvi red : Raster) (h : rasterShape ndvi ≠ rasterShape red) :
    parentCall compute ndvi (some red) =
      Except.error (.shapeMismatch "Input images (NDVI and Red band) must be of equal dimension") := by
  have hs : ¬ (shapeOk ndvi (some red) = true) := by simp [shapeOk, h]
  unfold parentCall
  rw [if_neg hs]

/-! ## NaN propagation through FP ops -/

theorem FP.nan_add (x : FP) : FP.nan + x = FP.nan := rfl

theorem FP.add_nan (x : FP) : x + FP.nan = FP.nan := by cases x <;> rfl

theorem FP.nan_sub (x : FP) : FP.nan - x = FP.nan := rfl

theorem FP.sub_nan (x : FP) : x - FP.nan = FP.nan := by cases x <;> rfl

theorem FP.nan_mul (x : FP) : FP.nan * x = FP.nan := rfl

theorem FP.mul_nan (x : FP) : x * FP.nan = FP.nan := by cases x <;> rfl

theorem monoWindowPix_isNaN_false (n : FP) (hn : n.isNaN = false) :
    (monoWindowPix n).isNaN = false := by
  cases n with
  | nan => simp at hn
  | val q => exact monoWindowPix_isNaN q

theorem nbemPix_isNaN_false (n r fvc cav : FP) (hn : n.isNaN = false) (hr : r.isNaN = false)
    (hf : fvc.isNaN = false) (hc : cav.isNaN = false) :
    (nbemPix n r fvc cav).isNaN = false := by
  cases n with
  | nan => simp at hn
  | val q =>
    cases r with
    | nan => simp at hr
    | val r2 =>
      cases fvc with
      | nan => simp at hf
      | val f2 =>
        cases cav with
        | nan => simp at hc
        | val c2 => exact nbemPix_isNaN q r2 f2 c2

theorem gopinadhPix_isNaN_false (n fvc : FP) (hn : n.isNaN = false) (hf : fvc.isNaN = false) :
    (gopinadhPix n fvc).isNaN = false := by
  cases n with
  | nan => simp at hn
  | val q =>
    cases fvc with
    | nan => simp at hf
    | val f2 => exact gopinadhPix_isNaN q f2

theorem fvcSpec_isNaN (x : FP) (h : x.isNaN = false) : (fvcSpec x).isNaN = false := by
  cases x with
  | nan => simp at h
  | val q => simp [fvcSpec]

theorem cavitySpec_isNaN (x : FP) (h : x.isNaN = false) : (cavitySpec x).isNaN = false := by
  cases x with
  | nan => simp at h
  | val q => simp [cavitySpec]

/-! ## Claims -/

/-- C1, counterexample: the NaN-mask fidelity claim fails on the NBEM model.
    At NDVI `[[0]]` (a non-NaN baresoil pixel) with red band `[[NaN]]`, the
    baresoil formula `0.973 - 0.047 * red` produces NaN, and the final NaN
    overlay (applied only where NDVI is NaN) does not clear it: the output
    pixel is NaN although the input NDVI pixel is not. -/
theorem C1_counterexample :
    nbemCall (fun x => x) (fun x => x) [[FP.val 0]] (some [[FP.nan]]) =
      Except.ok [[FP.nan]] ∧
    getPix [[FP.val 0]] 0 0 = some (FP.val 0) ∧
    (FP.val 0).isNaN = false ∧
    getPix [[FP.nan]] 0 0 = some FP.nan := by
  refine ⟨?_, rfl, rfl, rfl⟩
  have hb : mask_baresoil (FP.val 0) = true := (mask_baresoil_iff 0).mpr (by norm_num)
  have hm : mask_mixed (FP.val 0) = false := mask_mixed_false 0 (by norm_num)
  have hv : mask_vegetation (FP.val 0) = false := mask_vegetation_false 0 (by norm_num)
  unfold nbemCall parentCall nbemCompute
  simp [shapeOk, rasterShape, map2, nbemPix, hb, hm, hv, FP.mul_nan, FP.sub_nan]

/-- C1 (amended): every NaN NDVI pixel yields a NaN output pixel in all three
    models unconditionally (for NBEM, regardless of the red-band pixel's
    value); conversely a non-NaN NDVI pixel yields a non-NaN output pixel in
    the mono-window model unconditionally, and in the NBEM and Gopinadh
    models provided the FVC and cavity pixel functions preserve non-NaN and
    (for NBEM) the corresponding red-band pixel is non-NaN. -/
theorem C1_amended (fvcPix cavPix : FP → FP)
    (hf : ∀ x : FP, x.isNaN = false → (fvcPix x).isNaN = false)
    (hc : ∀ x : FP, x.isNaN = false → (cavPix x).isNaN = false)
    (ndvi : Raster) (i j : Nat) (n : FP) (hn : getPix ndvi i j = some n) :
    (∀ red out p, monoCall ndvi red = Except.ok out → getPix out i j = some p →
        p.isNaN = n.isNaN) ∧
    (∀ red out p rp, nbemCall fvcPix cavPix ndvi (some red) = Except.ok out →
        getPix red i j = some rp → getPix out i j = some p →
        (n.isNaN = true → p.isNaN = true) ∧
        (rp.isNaN = false → p.isNaN = n.isNaN)) ∧
    (∀ red out p, gopinadhCall fvcPix ndvi red = Except.ok out → getPix out i j = some p →
        p.isNaN = n.isNaN) := by
  refine ⟨?_, ?_, ?_⟩
  · intro red out p hcall hp
    rw [monoCall_ok_pix ndvi red out hcall i j n hn] at hp
    injection hp with hp
    subst hp
    cases n with
    | nan => rfl
    | val q => simp [monoWindowPix_isNaN q]
  · intro red out p rp hcall hrp hp
    rw [nbemCall_ok_pix fvcPix cavPix ndvi red out hcall i j n rp hn hrp] at hp
    injection hp with hp
    subst hp
    constructor
    · intro hnan
      cases n with
      | nan => rfl
      | val q => simp at hnan
    · intro hrnn
      cases n with
      | nan => rfl
      | val q =>
        have hfv := hf (FP.val q) (by simp)
        have hcv := hc (fvcPix (FP.val q)) hfv
        simp [nbemPix_isNaN_false (FP.val q) rp (fvcPix (FP.val q))
          (cavPix (fvcPix (FP.val q))) (by simp) hrnn hfv hcv]
  · intro red out p hcall hp
    rw [gopinadhCall_ok_pix fvcPix ndvi red out hcall i j n hn] at hp
    injection hp with hp
    subst hp
    cases n with
    | nan => rfl
    | val q =>
      have hfv := hf (FP.val q) (by simp)
      simp [gopinadhPix_isNaN_false (FP.val q) (fvcPix (FP.val q)) (by simp) hfv]

/-- Witness for C1 (amended), on the mono-window model at NDVI `[[0]]`. -/
theorem C1_witness : (FP.val 0.97).isNaN = (FP.val 0).isNaN :=
  (C1_amended fvcSpec cavitySpec fvcSpec_isNaN cavitySpec_isNaN
      [[FP.val 0]] 0 0 (FP.val 0) rfl).1 none [[FP.val 0.97]] (FP.val 0.97)
    (by
      have hb : monoWindowPix (FP.val 0) = FP.val 0.97 :=
        monoWindowPix_baresoil 0 (by norm_num) (by norm_num)
      unfold monoCall parentCall monoCompute
      simp [shapeOk, map2, pixmap, hb])
    rfl

/-- C2: in the mono-window (avdan) model, whenever the call succeeds (with or
    without a red band), a pixel with NDVI in [-1, 0.2) gets exactly 0.97, a
    pixel with NDVI in (0.5, 1] gets exactly 0.99, and a pixel with NDVI in
    [0.2, 0.5] gets exactly `0.004 * ((ndvi - 0.2) / (0.5 - 0.2))^2 + 0.986`. -/
theorem C2 (ndvi : Raster) (red : Option Raster) (out : Raster)
    (hcall : monoCall ndvi red = Except.ok out) (i j : Nat) (q : ℚ)
    (hn : getPix ndvi i j = some (FP.val q)) :
    ((-1 ≤ q ∧ q < 0.2) → getPix out i j = some (FP.val 0.97)) ∧
    ((0.5 < q ∧ q ≤ 1) → getPix out i j = some (FP.val 0.99)) ∧
    ((0.2 ≤ q ∧ q ≤ 0.5) →
      getPix out i j = some (FP.val (0.004 * ((q - 0.2) / (0.5 - 0.2)) ^ 2 + 0.986))) := by
  have hp := monoCall_ok_pix ndvi red out hcall i j (FP.val q) hn
  simp only [FP.isNaN_val, Bool.false_eq_true, if_false] at hp
  refine ⟨fun h => ?_, fun h => ?_, fun h => ?_⟩
  · rw [hp, monoWindowPix_baresoil q h.1 h.2]
  · rw [hp, monoWindowPix_vegetation q h.1 h.2]
  · rw [hp, monoWindowPix_mixed q h.1 h.2]

/-- Witness for C2, on a vegetation pixel: NDVI `[[0.7]]`, no red band. -/
theorem C2_witness : getPix [[FP.val 0.99]] 0 0 = some (FP.val 0.99) :=
  (C2 [[FP.val 0.7]] none [[FP.val 0.99]]
    (by
      have hv : monoWindowPix (FP.val 0.7) = FP.val 0.99 :=
        monoWindowPix_vegetation 0.7 (by norm_num) (by norm_num)
      unfold monoCall parentCall monoCompute
      simp [shapeOk, map2, pixmap, hv])
    0 0 0.7 rfl).2.1 (by norm_num)

/-- C3: in the Gopinadh model, whenever the call succeeds, every non-NaN NDVI
    pixel's output equals `0.9668 * (1 - FVC) + 0.9747 * FVC` with FVC the
    fractional-vegetation-cover value of that pixel's NDVI, with no
    land-cover-class dependence (no class hypothesis appears). -/
theorem C3 (fvcPix : FP → FP) (ndvi : Raster) (red : Option Raster) (out : Raster)
    (hcall : gopinadhCall fvcPix ndvi red = Except.ok out) (i j : Nat) (q : ℚ)
    (hn : getPix ndvi i j = some (FP.val q)) :
    getPix out i j =
      some (FP.val 0.9668 * (FP.val 1 - fvcPix (FP.val q)) +
            FP.val 0.9747 * fvcPix (FP.val q)) := by
  have hp := gopinadhCall_ok_pix fvcPix ndvi red out hcall i j (FP.val q) hn
  simp only [FP.isNaN_val, Bool.false_eq_true, if_false] at hp
  rw [hp]
  rfl

/-- Witness for C3, at NDVI `[[0]]` with the representative FVC transform. -/
theorem C3_witness :
    getPix [[FP.val 0.9668 * (FP.val 1 - fvcSpec (FP.val 0)) +
             FP.val 0.9747 * fvcSpec (FP.val 0)]] 0 0 =
      some (FP.val 0.9668 * (FP.val 1 - fvcSpec (FP.val 0)) +
            FP.val 0.9747 * fvcSpec (FP.val 0)) :=
  C3 fvcSpec [[FP.val 0]] none _
    (by
      unfold gopinadhCall parentCall gopinadhCompute
      simp [shapeOk, map2, pixmap, gopinadhPix])
    0 0 0 rfl

/-- C4: the three land-surface class predicates are pairwise disjoint;
    boundary policy: NDVI 0.2 is mixed and not baresoil, 0.5 is mixed and
    not vegetation, 1 is vegetation, -1 is baresoil; a non-NaN NDVI outside
    [-1, 1] and a NaN NDVI belong to no class (the classifier is a total
    function, so no error arises for them). -/
theorem C4 (n : FP) (q : ℚ) (hq : q < -1 ∨ 1 < q) :
    (¬(mask_baresoil n = true ∧ mask_vegetation n = true)) ∧
    (¬(mask_baresoil n = true ∧ mask_mixed n = true)) ∧
    (¬(mask_vegetation n = true ∧ mask_mixed n = true)) ∧
    mask_mixed (FP.val 0.2) = true ∧ mask_baresoil (FP.val 0.2) = false ∧
    mask_mixed (FP.val 0.5) = true ∧ mask_vegetation (FP.val 0.5) = false ∧
    mask_vegetation (FP.val 1) = true ∧ mask_baresoil (FP.val (-1)) = true ∧
    (mask_baresoil (FP.val q) = false ∧ mask_vegetation (FP.val q) = false ∧
      mask_mixed (FP.val q) = false) ∧
    (mask_baresoil FP.nan = false ∧ mask_vegetation FP.nan = false ∧
      mask_mixed FP.nan = false) := by
  refine ⟨?_, ?_, ?_,
    (mask_mixed_iff _).mpr (by norm_num), mask_baresoil_false _ (by norm_num),
    (mask_mixed_iff _).mpr (by norm_num), mask_vegetation_false _ (by norm_num),
    (mask_vegetation_iff _).mpr (by norm_num), (mask_baresoil_iff _).mpr (by norm_num),
    ⟨mask_baresoil_false q (by rintro ⟨h3, h4⟩; norm_num at h3 h4; rcases hq with h | h <;> linarith),
     mask_vegetation_false q (by rintro ⟨h3, h4⟩; norm_num at h3 h4; rcases hq with h | h <;> linarith),
     mask_mixed_false q (by rintro ⟨h3, h4⟩; norm_num at h3 h4; rcases hq with h | h <;> linarith)⟩,
    rfl, rfl, rfl⟩
  · rintro ⟨ha, hb⟩
    cases n with
    | nan => simp at ha
    | val x =>
      rw [mask_baresoil_iff] at ha
      rw [mask_vegetation_iff] at hb
      obtain ⟨-, h4⟩ := ha
      obtain ⟨h5, -⟩ := hb
      norm_num at h4 h5
      linarith
  · rintro ⟨ha, hb⟩
    cases n with
    | nan => simp at ha
    | val x =>
      rw [mask_baresoil_iff] at ha
      rw [mask_mixed_iff] at hb
      obtain ⟨-, h4⟩ := ha
      obtain ⟨h5, -⟩ := hb
      norm_num at h4 h5
      linarith
  · rintro ⟨ha, hb⟩
    cases n with
    | nan => simp at ha
    | val x =>
      rw [mask_vegetation_iff] at ha
      rw [mask_mixed_iff] at hb
      obtain ⟨h4, -⟩ := ha
      obtain ⟨-, h5⟩ := hb
      norm_num at h4 h5
      linarith

/-- Witness for C4, at NDVI pixel 0 and out-of-range value 2. -/
theorem C4_witness : mask_mixed (FP.val 0.2) = true :=
  (C4 (FP.val 0) 2 (by norm_num)).2.2.2.1

/-- C5: invoking the NBEM (xiaolei) model without a red band fails with the
    missing-input error for every NDVI raster; the error is raised by the
    red-band presence assertion before any per-class emissivity value is
    written (the computation returns no raster, only the error). -/
theorem C5 (fvcPix cavPix : FP → FP) (ndvi : Raster) :
    nbemCall fvcPix cavPix ndvi none =
      Except.error (EmisError.missingInput
        "Red band cannot be None for this emissivity computation method") := rfl

/-- C6: dispatching with method name "avdan" returns exactly the result of
    directly constructing and invoking the mono-window model on the same
    NDVI and red-band inputs. -/
theorem C6 (fvcPix cavPix : FP → FP) (ndvi : Raster) (red : Option Raster) :
    emissivityDispatch fvcPix cavPix ndvi red "avdan" = monoCall ndvi red := rfl

/-- C7, counterexample: the dispatcher does fail on the unknown method name
    "unknown" (which is outside the valid set) with no model executed, but
    the error message is the membership assertion's "Method not implemented",
    which does not list the valid method set. -/
theorem C7_counterexample :
    emissivityDispatch fvcSpec cavitySpec [[FP.val 0]] none "unknown" =
      Except.error (EmisError.unknownMethod "Method not implemented") ∧
    ("unknown" ∈ EMISSIVITY_METHODS) = False ∧
    msgListsMethods "Method not implemented" = false := by
  refine ⟨rfl, by simp [EMISSIVITY_METHODS], by decide⟩

/-- C7 (amended): for every method name outside {avdan, xiaolei, gopinadh}
    the dispatcher fails with the unknown-method error before executing any
    model, for all inputs; its message is the fixed string "Method not
    implemented", which does not list the valid method set. -/
theorem C7_amended (fvcPix cavPix : FP → FP) (ndvi : Raster) (red : Option Raster)
    (method : String) (h : method ∉ EMISSIVITY_METHODS) :
    emissivityDispatch fvcPix cavPix ndvi red method =
      Except.error (EmisError.unknownMethod "Method not implemented") := by
  unfold emissivityDispatch
  rw [if_neg h]

/-- Witness for C7 (amended), at method name "unknown". -/
theorem C7_witness :
    emissivityDispatch fvcSpec cavitySpec [[FP.val 0.3]] none "unknown" =
      Except.error (EmisError.unknownMethod "Method not implemented") :=
  C7_amended fvcSpec cavitySpec [[FP.val 0.3]] none "unknown" (by decide)

/-- C8: invoking the NBEM model with a red band whose shape differs from the
    NDVI raster's fails with the shape-mismatch error (the base-class check,
    before any emissivity value is computed); no broadcasting occurs. -/
theorem C8 (fvcPix cavPix : FP → FP) (ndvi red : Raster)
    (h : rasterShape ndvi ≠ rasterShape red) :
    nbemCall fvcPix cavPix ndvi (some red) =
      Except.error (EmisError.shapeMismatch
        "Input images (NDVI and Red band) must be of equal dimension") :=
  parentCall_shape_mismatch _ ndvi red h

/-- Witness for C8: NDVI 1x1, red band 1x2. -/
theorem C8_witness :
    nbemCall fvcSpec cavitySpec [[FP.val 0]] (some [[FP.val 0, FP.val 0]]) =
      Except.error (EmisError.shapeMismatch
        "Input images (NDVI and Red band) must be of equal dimension") :=
  C8 fvcSpec cavitySpec [[FP.val 0]] [[FP.val 0, FP.val 0]] (by decide)

/-- C9: in the mono-window and NBEM models, a pixel whose NDVI is non-NaN but
    outside [-1, 1] falls in no land-cover class and keeps the zero-filled
    output buffer's default 0 (not NaN) whenever the call succeeds. -/
theorem C9 (fvcPix cavPix : FP → FP) (ndvi : Raster) (i j : Nat) (q : ℚ)
    (hn : getPix ndvi i j = some (FP.val q)) (hq : q < -1 ∨ 1 < q) :
    (∀ red out, monoCall ndvi red = Except.ok out → getPix out i j = some (FP.val 0)) ∧
    (∀ red rp out, nbemCall fvcPix cavPix ndvi (some red) = Except.ok out →
        getPix red i j = some rp → getPix out i j = some (FP.val 0)) := by
  constructor
  · intro red out hcall
    have hp := monoCall_ok_pix ndvi red out hcall i j (FP.val q) hn
    simp only [FP.isNaN_val, Bool.false_eq_true, if_false] at hp
    rw [hp, monoWindowPix_out_of_range q hq]
  · intro red rp out hcall hr
    have hp := nbemCall_ok_pix fvcPix cavPix ndvi red out hcall i j (FP.val q) rp hn hr
    simp only [FP.isNaN_val, Bool.false_eq_true, if_false] at hp
    rw [hp, nbemPix_out_of_range q rp (fvcPix (FP.val q)) (cavPix (fvcPix (FP.val q))) hq]

/-- Witness for C9, on the mono-window model at NDVI `[[2]]`. -/
theorem C9_witness : getPix [[FP.val 0]] 0 0 = some (FP.val 0) :=
  (C9 fvcSpec cavitySpec [[FP.val 2]] 0 0 2 rfl (by norm_num)).1 none [[FP.val 0]]
    (by
      have h0 : monoWindowPix (FP.val 2) = FP.val 0 :=
        monoWindowPix_out_of_range 2 (by norm_num)
      unfold monoCall parentCall monoCompute
      simp [shapeOk, map2, pixmap, h0])

/-- C10: the red-band shape check lives in the shared base invocation path,
    so a mismatched red band makes the call fail with shape-mismatch even
    for the mono-window and Gopinadh models, which never read the red band. -/
theorem C10 (fvcPix : FP → FP) (ndvi red : Raster)
    (h : rasterShape ndvi ≠ rasterShape red) :
    monoCall ndvi (some red) =
      Except.error (EmisError.shapeMismatch
        "Input images (NDVI and Red band) must be of equal dimension") ∧
    gopinadhCall fvcPix ndvi (some red) =
      Except.error (EmisError.shapeMismatch
        "Input images (NDVI and Red band) must be of equal dimension") :=
  ⟨parentCall_shape_mismatch _ ndvi red h, parentCall_shape_mismatch _ ndvi red h⟩

/-- Witness for C10: NDVI 1x1, red band 1x2, mono-window model. -/
theorem C10_witness :
    monoCall [[FP.val 0.3]] (some [[FP.val 0.1, FP.val 0.1]]) =
      Except.error (EmisError.shapeMismatch
        "Input images (NDVI and Red band) must be of equal dimension") :=
  (C10 fvcSpec [[FP.val 0.3]] [[FP.val 0.1, FP.val 0.1]] (by decide)).1
